import Mathlib

/-!
Shallow embedding of the nagflux ingestion pipeline, for checking the
natural-language specification against the code.

Embedded components:
* the external-file (CSV) collector `FileCollector` (`src/unnamed/part_000`):
  `parseFile` and the per-tick body of `run`;
* the spool-file scanner tick (`src/collector/spoolfile/nagiosSpoolfileCollector.go`);
* the elasticsearch sender worker (`src/target/elasticsearch/Worker.go`):
  the `run` select loop, `sendBuffer` with its retry loop, `sendData`,
  `dumpRemainingQueries`, `readQueriesFromQueue`, `waitForQuitOrGoOn` and
  `dumpQueries`.

Strings coming from Go are modelled as Lean `String`; Go byte slicing such as
`v[:2]` is modelled on the character list `String.toList` (all strings the
claims touch are ASCII, where the two coincide).  Go maps with string keys are
modelled as association lists with overwrite-on-insert, which keeps keys
unique.  Fallible operations return `Option`; a Go `panic` is modelled as the
`none` result of the enclosing operation.
-/

namespace Nagflux

/-- Modelled from the spec: the `collector.Filterable` component of a Record
(`filter` field, §3 of the spec); the `collector` package is not under `src/`.
The spec: "Records with an empty `filter` default to `all`", so the
empty/sentinel value carries the empty string and the `all` value the string
"all". -/
structure Filterable where
  Filter : String
deriving DecidableEq, Repr

/-- Modelled from the spec: `collector.EmptyFilterable`, the zero value of
`Filterable` (the sentinel for "unspecified"). -/
def EmptyFilterable : Filterable := ⟨""⟩

/-- Modelled from the spec: `collector.AllFilterable`, the filter admitting
every target. -/
def AllFilterable : Filterable := ⟨"all"⟩

/-- Modelled from the spec: the `Printable` record type (§3 "Record" of the
spec): `table`, `timestamp`, `filter`, `tags`, `fields`.  The Go type lives in
the `collector` package, which is not under `src/`; field names follow the use
sites in `src/unnamed/part_000`.  Go string maps are modelled as association
lists with overwrite-on-insert. -/
structure Printable where
  Table : String
  Timestamp : String
  Filterable : Filterable
  tags : List (String × String)
  fields : List (String × String)
deriving DecidableEq, Repr

/-- Go map assignment `m[k] = v`: overwrite the binding of `k` if present,
else append it. -/
def mapInsert (m : List (String × String)) (k v : String) : List (String × String) :=
  match m with
  | [] => [(k, v)]
  | (k2, v2) :: t => if k2 = k then (k, v) :: t else (k2, v2) :: mapInsert t k v

/-- `var requiredFields = []string{"table", "time"}` (src/unnamed/part_000:29). -/
def requiredFields : List String := ["table", "time"]

/-- `var optionalFields = []string{"target"}` (src/unnamed/part_000:30). -/
def optionalFields : List String := ["target"]

/-- Modelled from the spec: `helper.Contains(s, elems)` (the `helper` package
is not under `src/`).  Per its use at src/unnamed/part_000:103 and the spec
("`table`, `time` — required; missing either aborts the file"), it is true
iff every element of `elems` occurs in `s`. -/
def Contains (s elems : List String) : Bool :=
  elems.all fun e => s.contains e

/-- Log events the CSV collector can emit (the `Warn`/`Warnf` calls of
src/unnamed/part_000, by call site). -/
inductive LogEvent
  /-- `os.Open` failed (src/unnamed/part_000:92). -/
  | openFailed
  /-- `reader.ReadAll` failed (src/unnamed/part_000:100). -/
  | readFailed
  /-- "The file %s doesn't contain all of these fields: %s" (line 104). -/
  | missingRequired (filename : String) (fields : List String)
  /-- "This column does not fit the requirements: %s..." (line 121). -/
  | badColumn (column : String)
  /-- "This should not happen: %s->%s" (line 143). -/
  | shouldNotHappen (column value : String)
deriving DecidableEq, Repr

/-- Go `len(v) > 1 && v[:2] == "t_"` (src/unnamed/part_000:112), on the
character list. -/
def isTagHeader (v : String) : Bool :=
  decide (1 < v.toList.length) && decide (v.toList.take 2 = ['t', '_'])

/-- Go `len(v) > 1 && v[:2] == "f_"` (src/unnamed/part_000:114). -/
def isFieldHeader (v : String) : Bool :=
  decide (1 < v.toList.length) && decide (v.toList.take 2 = ['f', '_'])

/-- Go `v[2:]` (src/unnamed/part_000:113,115): the column name with its
two-character prefix removed. -/
def prefixName (v : String) : String := ⟨v.toList.drop 2⟩

/-- The header scan of src/unnamed/part_000:111-123, started at column index
`i`: builds `tagIndices`, `fieldIndices` and the column warnings, in this
order of the triple. -/
def headerScanAux (i : Nat) : List String → List (Nat × String) × List (Nat × String) × List LogEvent
  | [] => ([], [], [])
  | v :: rest =>
    let r := headerScanAux (i + 1) rest
    if isTagHeader v then ((i, prefixName v) :: r.1, r.2.1, r.2.2)
    else if isFieldHeader v then (r.1, (i, prefixName v) :: r.2.1, r.2.2)
    else if Contains requiredFields [v] then r
    else if Contains optionalFields [v] then r
    else (r.1, r.2.1, LogEvent.badColumn v :: r.2.2)

/-- Go `for i, v := range r` with an explicit starting index: the cell list of
a row paired with its column indices. -/
def enumFrom (i : Nat) : List String → List (Nat × String)
  | [] => []
  | v :: rest => (i, v) :: enumFrom (i + 1) rest

/-- One iteration of the cell loop of src/unnamed/part_000:130-146, on the
accumulated `(currentPrintable, warnings)` pair. -/
def rowStep (hdr : List String) (tagIdx fieldIdx : List (Nat × String))
    (acc : Printable × List LogEvent) (iv : Nat × String) : Printable × List LogEvent :=
  let i := iv.1
  let v := iv.2
  let pr := acc.1
  let w := acc.2
  if v = "" then acc
  else if hdr.getD i "" = "table" then ({ pr with Table := v }, w)
  else if hdr.getD i "" = "time" then ({ pr with Timestamp := v }, w)
  else if hdr.getD i "" = "target" then ({ pr with Filterable := ⟨v⟩ }, w)
  else
    match tagIdx.lookup i with
    | some name => ({ pr with tags := mapInsert pr.tags name v }, w)
    | none =>
      match fieldIdx.lookup i with
      | some name => ({ pr with fields := mapInsert pr.fields name v }, w)
      | none => (pr, w ++ [LogEvent.shouldNotHappen (hdr.getD i "") v])

/-- The body of the row loop of src/unnamed/part_000:125-153 for one data row:
start from the zero `Printable` (empty maps, zero-value `Filterable`), process
each cell, then default an empty filter to `all` (lines 148-150). -/
def parseRow (hdr : List String) (tagIdx fieldIdx : List (Nat × String))
    (r : List String) : Printable × List LogEvent :=
  let init : Printable := ⟨"", "", EmptyFilterable, [], []⟩
  let res := (enumFrom 0 r).foldl (rowStep hdr tagIdx fieldIdx) (init, [])
  if res.1.Filterable = EmptyFilterable then ({ res.1 with Filterable := AllFilterable }, res.2)
  else res

/-- What the collector can observe of a file on disk:
`openFailed` — `os.Open` returns an error;
`readFailed` — the csv reader fails on the raw bytes (for instance a quoting
error);
`raw rows` — the csv reader tokenizes the file into these rows. -/
inductive FileAccess
  | openFailed
  | readFailed
  | raw (rows : List (List String))
deriving DecidableEq, Repr

/-- Go's `encoding/csv` `Reader.ReadAll` with the default `FieldsPerRecord`:
every record must have as many fields as the first one, otherwise `ReadAll`
returns an error (`none` here).  An empty input yields zero records and no
error. -/
def readAll (rows : List (List String)) : Option (List (List String)) :=
  match rows with
  | [] => some []
  | h :: t => if t.all (fun r => r.length = h.length) then some (h :: t) else none

/-- `FileCollector.parseFile` (src/unnamed/part_000:88-155).  Returns the
records and the warnings logged; `none` models the Go panic raised by
`records[0]` when `ReadAll` produced zero records (src/unnamed/part_000:103
has no emptiness check). -/
def parseFile (filename : String) (file : FileAccess) : Option (List Printable × List LogEvent) :=
  match file with
  | .openFailed => some ([], [LogEvent.openFailed])
  | .readFailed => some ([], [LogEvent.readFailed])
  | .raw rows =>
    match readAll rows with
    | none => some ([], [LogEvent.readFailed])
    | some [] => none
    | some (hdr :: rest) =>
      if Contains hdr requiredFields then
        let scan := headerScanAux 0 hdr
        let res := rest.foldl
          (fun acc r =>
            let pw := parseRow hdr scan.1 scan.2.1 r
            (acc.1 ++ [pw.1], acc.2 ++ pw.2))
          ([], [])
        some (res.1, scan.2.2 ++ res.2)
      else
        some ([], [LogEvent.missingRequired filename requiredFields])

/-- The records component of `parseFile`, empty when the parser panicked. -/
def parsedRecords (filename : String) (file : FileAccess) : List Printable :=
  match parseFile filename file with
  | none => []
  | some res => res.1

/-- The spec's Record invariants (§3): `table` non-empty, `timestamp` a
decimal integer, no empty-string key in `tags` or `fields`. -/
def isNatString (s : String) : Bool :=
  decide (s.toList ≠ []) && s.toList.all Char.isDigit

/-- Decidable form of the spec's Record invariants (§3 of the spec). -/
def recordInvariants (p : Printable) : Bool :=
  (p.Table != "") && isNatString p.Timestamp
    && (p.tags.lookup "").isNone && (p.fields.lookup "").isNone

/-! The per-tick bodies of the two scanner loops.  Both loops first select on
quit versus the tick timer; the functions below embed the body run on a tick
on which no quit signal arrives. -/

/-- What one tick of the external CSV collector does to the files it sees
(src/unnamed/part_000:65-83), file by file: parse, offer every record to every
result queue, then call `os.Remove` — unconditionally, whatever `parseFile`
returned.  The `Bool` is true when `parseFile` panicked, which kills the
collector goroutine: the panicking file and everything after it contribute
nothing. -/
structure TickResult where
  emitted : List Printable
  removed : List String
  warnings : List LogEvent
deriving DecidableEq, Repr

/-- The file loop of `FileCollector.run` (src/unnamed/part_000:65-83). -/
def fileCollectorFiles : List (String × FileAccess) → TickResult × Bool
  | [] => (⟨[], [], []⟩, false)
  | (name, acc) :: rest =>
    match parseFile name acc with
    | none => (⟨[], [], []⟩, true)
    | some res =>
      let r := fileCollectorFiles rest
      (⟨res.1 ++ r.1.emitted, name :: r.1.removed, res.2 ++ r.1.warnings⟩, r.2)

/-- One tick of `FileCollector.run` (src/unnamed/part_000:59-83): consult
`config.IsAnyTargetOnPause()` first; while paused the tick does nothing. -/
def fileCollectorTick (pause : Bool) (files : List (String × FileAccess)) : TickResult × Bool :=
  if pause then (⟨[], [], []⟩, false) else fileCollectorFiles files

/-- One tick of `NagiosSpoolfileCollector.run`
(src/collector/spoolfile/nagiosSpoolfileCollector.go:67-86): consult the pause
flag first; else read the directory, set the spool-files gauge and enqueue
`path.Join(dir, name)` for every entry.  `gauge = none` means the gauge was
not touched on this tick. -/
structure SpoolTick where
  enqueued : List String
  gauge : Option Nat
deriving DecidableEq, Repr

/-- The tick body of the spool-file scanner. -/
def spoolCollectorTick (pause : Bool) (dir : String) (files : List String) : SpoolTick :=
  if pause then ⟨[], none⟩
  else ⟨files.map (fun f => dir ++ "/" ++ f), some files.length⟩

/-! The elasticsearch sender worker (src/target/elasticsearch/Worker.go).
The worker is generic in the queue element type `Q` (Go
`collector.Printable`); serialization (`castJobToString`, which delegates to
the target-side formatter `PrintForElasticsearch`, a collaborator outside the
pipeline core per §1/§6 of the spec) is a parameter `cast : Q → Option String`
— `none` models the unsupported-version error of Worker.go:315. -/

/-- `const dataTimeout = time.Duration(20) * time.Second` (Worker.go:38),
in seconds. -/
def dataTimeout : Nat := 20

/-- The 10-second interruptible retry wait of `waitForQuitOrGoOn`
(Worker.go:283), in seconds. -/
def retryWait : Nat := 10

/-- The 200-millisecond drain silence of `readQueriesFromQueue`
(Worker.go:219), in milliseconds. -/
def drainSilence : Nat := 200

/-- The events the `run` select loop can wake on in the Ready state
(Worker.go:77-93). -/
inductive RunEvent (Q : Type)
  | quit
  | job (q : Q)
  | timeout

/-- Result of one Ready-state select iteration: the new buffer, the batches
handed to `sendBuffer` (in order), and whether the loop returned. -/
structure StepOut (Q : Type) where
  buffer : List Q
  flushed : List (List Q)
  exited : Bool
deriving DecidableEq, Repr

/-- One iteration of the Ready-state select of `Worker.run` (Worker.go:77-93):
quit → flush the buffer and return; a received job is appended and the buffer
is flushed and reset when its length reaches exactly 10000; the 20 s data
timeout flushes and resets. -/
def runStep {Q : Type} (buffer : List Q) : RunEvent Q → StepOut Q
  | .quit => ⟨buffer, [buffer], true⟩
  | .job q =>
    let b := buffer ++ [q]
    if b.length = 10000 then ⟨[], [b], false⟩ else ⟨b, [], false⟩
  | .timeout => ⟨[], [buffer], false⟩

/-- What the downstream can answer to one HTTP POST: a transport error
(`httpClient.Do` fails), or a reply whose decoded JSON has `Errors` set or
clear (Worker.go:234-243). -/
inductive HttpResp
  | netErr
  | ok (errorsFlag : Bool)
deriving DecidableEq, Repr

/-- The worker's named error values (Worker.go:40-44). -/
inductive SendErr
  | interrupted
  | badRequest
  | httpClient
  | failedToSend
  | e500
deriving DecidableEq, Repr

/-- The Go error strings (Worker.go:40-44), used by `dumpErrorQueries`'s
message line. -/
def errMessage : SendErr → String
  | .interrupted => "Got interrupted"
  | .badRequest => "400 Bad Request"
  | .httpClient => "Http Client got an error"
  | .failedToSend => "Could not send data"
  | .e500 => "Error 500"

/-- `Worker.sendData` (Worker.go:227-253) as a function of the downstream's
response.  Outer `none` models the panic of `printErrors` (Worker.go:265),
reached when the reply has per-item errors and `log` is set; otherwise the
returned Go error: `errorHTTPClient` on a transport error, and `nil` in every
remaining case — including per-item errors with `log` clear, per the
`return nil //TODO: return error` of Worker.go:252. -/
def sendData (resp : HttpResp) (logFlag : Bool) : Option (Option SendErr) :=
  match resp with
  | .netErr => some (some SendErr.httpClient)
  | .ok false => some none
  | .ok true => if logFlag then none else some none

/-- `Worker.waitForQuitOrGoOn` (Worker.go:275-286) as a function of whether a
quit signal arrives during the 10 s wait. -/
def waitForQuitOrGoOn (quitArrives : Bool) : Option SendErr :=
  if quitArrives then some SendErr.interrupted else none

/-- The worker's environment during one `sendBuffer` call: the downstream's
responses to successive POSTs, the successive `waitForQuitOrGoOn` outcomes
(true = quit signal), and the contents of the worker's result queue
(`worker.jobs`). -/
structure WorkerEnv (Q : Type) where
  responses : List HttpResp
  quits : List Bool
  jobs : List Q
deriving DecidableEq, Repr

/-- Consume the next downstream response; an exhausted response list stands
for a healthy downstream (`ok false`). -/
def takeResp {Q : Type} (env : WorkerEnv Q) : HttpResp × WorkerEnv Q :=
  match env.responses with
  | [] => (HttpResp.ok false, env)
  | r :: rest => (r, { env with responses := rest })

/-- Consume the next `waitForQuitOrGoOn` outcome; an exhausted list stands for
no quit signal (the 10 s timeout fires). -/
def takeQuit {Q : Type} (env : WorkerEnv Q) : Bool × WorkerEnv Q :=
  match env.quits with
  | [] => (false, env)
  | b :: rest => (b, { env with quits := rest })

/-- Externally visible events of one `sendBuffer` call: an HTTP POST of the
given serialized lines, an append of lines to the dump file `<base>` (via
`dumpRemainingQueries`), or an append to `<base>-errors` with its one-line
marker (via `dumpErrorQueries`). -/
inductive SpillEv
  | post (lines : List String)
  | dumpBase (lines : List String)
  | dumpErrors (marker : String) (lines : List String)
deriving DecidableEq, Repr

/-- State threaded through one `sendBuffer` call: the environment, the event
trace so far, the local `sendErr` variable, and whether the worker goroutine
panicked. -/
structure FlushState (Q : Type) where
  env : WorkerEnv Q
  trace : List SpillEv
  sendErr : Option SendErr
  panicked : Bool
deriving DecidableEq, Repr

/-- `lineQueries`: the casts that succeeded, in order (Worker.go:130-136). -/
def castLines {Q : Type} (cast : Q → Option String) (queries : List Q) : List String :=
  queries.filterMap cast

/-- One `worker.sendData(dataToSend, log)` call inside `sendBuffer`: consume a
response, record the POST, panic or store the returned error in `sendErr`. -/
def sendDataStep {Q : Type} (payload : List String) (logFlag : Bool)
    (st : FlushState Q) : FlushState Q :=
  let re := takeResp st.env
  let st1 := { st with env := re.2, trace := st.trace ++ [SpillEv.post payload] }
  match sendData re.1 logFlag with
  | none => { st1 with panicked := true }
  | some e => { st1 with sendErr := e }

/-- The per-line resend of the `errorBadRequest` branch (Worker.go:150-156):
send each line alone with `log` clear and collect the lines whose send
returned an error. -/
def resendIndividually {Q : Type} : List String → FlushState Q → List String × FlushState Q
  | [], st => ([], st)
  | lq :: rest, st =>
    if st.panicked then ([], st)
    else
      let re := takeResp st.env
      let st1 := { st with env := re.2, trace := st.trace ++ [SpillEv.post [lq]] }
      match sendData re.1 false with
      | none => ([], { st1 with panicked := true })
      | some qerr =>
        let r := resendIndividually rest st1
        (if qerr.isSome then lq :: r.1 else r.1, r.2)

/-- The marker line of `dumpErrorQueries` in the bad-request branch
(Worker.go:157). -/
def notCleanMarker : String := "\n\nOne of the values is not clean..\n"

/-- The marker line of `dumpErrorQueries` after exhausted retries
(Worker.go:174). -/
def exhaustedMarker (e : SendErr) : String := "\n\n" ++ errMessage e ++ "\n"

/-- `Worker.dumpRemainingQueries` (Worker.go:193-205): under the process-wide
mutex, if the result queue or the remaining lines are non-empty, drain the
queue (`readQueriesFromQueue`, Worker.go:208-224, which reads until 200 ms of
silence — here: the whole queue) and append remaining ++ drained to `<base>`. -/
def dumpRemainingQueries {Q : Type} (cast : Q → Option String)
    (remaining : List String) (st : FlushState Q) : FlushState Q :=
  if st.env.jobs.length ≠ 0 ∨ remaining.length ≠ 0 then
    let drained := castLines cast st.env.jobs
    { st with
      env := { st.env with jobs := [] }
      trace := st.trace ++ [SpillEv.dumpBase (remaining ++ drained)] }
  else st

/-- The `for i := 0; i < 3; i++` retry loop of `sendBuffer`
(Worker.go:146-171), by remaining iterations.  The `nil` case of the Go
switch is a no-op (`break` leaves the switch, not the loop).  In the default
case the resend of Worker.go:169 runs unconditionally — also when a quit
signal just caused `dumpRemainingQueries`; the `sendErr = nil` of line 166 is
dead, being overwritten by the resend's result. -/
def retryLoop {Q : Type} (cast : Q → Option String) (lineQueries : List String) :
    Nat → FlushState Q → FlushState Q
  | 0, st => st
  | n + 1, st =>
    if st.panicked then st
    else
      let st1 :=
        match st.sendErr with
        | some SendErr.badRequest =>
          let r := resendIndividually lineQueries st
          if r.2.panicked then r.2
          else { r.2 with
                  trace := r.2.trace ++ [SpillEv.dumpErrors notCleanMarker r.1]
                  sendErr := none }
        | none => st
        | some _ =>
          let qe := takeQuit st.env
          let stA := { st with env := qe.2 }
          let stB :=
            match waitForQuitOrGoOn qe.1 with
            | some _ => { dumpRemainingQueries cast lineQueries stA with sendErr := none }
            | none => stA
          sendDataStep lineQueries true stB
      retryLoop cast lineQueries n st1

/-- `Worker.sendBuffer` (Worker.go:125-180): cast, POST the whole batch, on
error run the 3-pass retry loop, and if an error is still pending afterwards
append the whole buffer to `<base>-errors`.  Prometheus counters are omitted
(no claim mentions them). -/
def sendBuffer {Q : Type} (cast : Q → Option String) (queries : List Q)
    (env : WorkerEnv Q) : FlushState Q :=
  if queries.length = 0 then ⟨env, [], none, false⟩
  else
    let lineQueries := castLines cast queries
    let st1 := sendDataStep lineQueries true ⟨env, [], none, false⟩
    if st1.panicked then st1
    else if st1.sendErr = none then st1
    else
      let st2 := retryLoop cast lineQueries 3 st1
      if st2.panicked then st2
      else
        match st2.sendErr with
        | some e => { st2 with trace := st2.trace ++ [SpillEv.dumpErrors (exhaustedMarker e) lineQueries] }
        | none => st2

/-- The identity serializer, instantiating `Q` with already-serialized
lines in concrete theorems. -/
def castId : String → Option String := fun s => some s

/-! `Worker.dumpQueries` (Worker.go:289-305) against a one-file view of the
filesystem. -/

/-- A dump file on disk: requested creation mode and content. -/
structure FileState where
  mode : Nat
  content : String
deriving DecidableEq, Repr

/-- `Worker.dumpQueries` (Worker.go:289-305) on the state of the dump file
(`none` = file does not exist).  If the file does not exist it is created by
`os.Create`, which requests mode 0666 (Go `os.Create` is
`OpenFile(name, O_RDWR|O_CREATE|O_TRUNC, 0666)`).  The subsequent
`os.OpenFile(filename, O_APPEND|O_WRONLY, 0600)` carries no `O_CREATE`, so
its 0600 permission argument is never used; each query is appended. -/
def dumpQueries (file : Option FileState) (queries : List String) : Option FileState :=
  let file1 :=
    match file with
    | none => some (⟨0o666, ""⟩ : FileState)
    | some f => some f
  match file1 with
  | none => none
  | some f => some { f with content := f.content ++ String.join queries }

/-! Helper lemmas about the association-list operations and the row fold. -/

theorem lookup_mem {l : List (Nat × String)} {a : Nat} {b : String}
    (h : l.lookup a = some b) : (a, b) ∈ l := by
  induction l with
  | nil => simp [List.lookup] at h
  | cons p t ih =>
    obtain ⟨k, v⟩ := p
    cases hak : a == k with
    | true =>
      have ha : a = k := eq_of_beq hak
      have hb : v = b := by simpa [List.lookup, hak] using h
      subst ha; subst hb
      exact List.mem_cons_self _ _
    | false =>
      have h2 : t.lookup a = some b := by simpa [List.lookup, hak] using h
      exact List.mem_cons_of_mem _ (ih h2)

theorem mapInsert_lookup_ne (m : List (String × String)) (k v k' : String)
    (h : k' ≠ k) : (mapInsert m k v).lookup k' = m.lookup k' := by
  induction m with
  | nil => simp [mapInsert, List.lookup, beq_eq_false_iff_ne.mpr h]
  | cons p t ih =>
    obtain ⟨k2, v2⟩ := p
    by_cases hk : k2 = k
    · subst hk
      simp [mapInsert, List.lookup, beq_eq_false_iff_ne.mpr h]
    · by_cases h2 : k' = k2
      · subst h2
        simp [mapInsert, hk, List.lookup]
      · simp [mapInsert, hk, List.lookup, beq_eq_false_iff_ne.mpr h2, ih]

theorem prefixName_ne_empty (v : String) (c : Char)
    (hlen : 1 < v.toList.length) (htake : v.toList.take 2 = [c, '_'])
    (hne : v ≠ ⟨[c, '_']⟩) : prefixName v ≠ "" := by
  intro h0
  have hd : v.toList.drop 2 = [] := by
    have h1 := congrArg String.data h0
    simpa [prefixName, String.toList] using h1
  have hlen2 : v.toList.length ≤ 2 := by
    have h2 := congrArg List.length hd
    rw [List.length_drop] at h2
    simp only [List.length_nil] at h2
    omega
  have htk : v.toList.take 2 = v.toList := List.take_of_length_le hlen2
  have hv : v.toList = [c, '_'] := htk.symm.trans htake
  apply hne
  cases v with
  | mk data => exact congrArg String.mk hv

theorem headerScanAux_tag_names (hdr : List String) (h : ∀ v ∈ hdr, v ≠ "t_") :
    ∀ k, ∀ p ∈ (headerScanAux k hdr).1, p.2 ≠ "" := by
  induction hdr with
  | nil => intro k p hp; simp [headerScanAux] at hp
  | cons v rest ih =>
    intro k p hp
    have hv : v ≠ "t_" := h v (List.mem_cons_self _ _)
    have hrest : ∀ u ∈ rest, u ≠ "t_" := fun u hu => h u (List.mem_cons_of_mem _ hu)
    by_cases h1 : isTagHeader v = true
    · rw [headerScanAux] at hp
      simp only [h1, if_true] at hp
      rcases List.mem_cons.mp hp with he | hm
      · subst he
        have h1' := h1
        simp only [isTagHeader, Bool.and_eq_true, decide_eq_true_eq] at h1'
        exact prefixName_ne_empty v 't' h1'.1 h1'.2 hv
      · exact ih hrest (k + 1) p hm
    · rw [headerScanAux] at hp
      simp only [h1] at hp
      by_cases h2 : isFieldHeader v = true
      · simp only [h2, if_true, if_false] at hp
        exact ih hrest (k + 1) p hp
      · simp only [h2, if_false] at hp
        by_cases h3 : Contains requiredFields [v] = true
        · simp only [h3, if_true] at hp
          exact ih hrest (k + 1) p hp
        · simp only [h3, if_false] at hp
          by_cases h4 : Contains optionalFields [v] = true
          · simp only [h4, if_true] at hp
            exact ih hrest (k + 1) p hp
          · simp only [h4, if_false] at hp
            exact ih hrest (k + 1) p hp

theorem headerScanAux_field_names (hdr : List String) (h : ∀ v ∈ hdr, v ≠ "f_") :
    ∀ k, ∀ p ∈ (headerScanAux k hdr).2.1, p.2 ≠ "" := by
  induction hdr with
  | nil => intro k p hp; simp [headerScanAux] at hp
  | cons v rest ih =>
    intro k p hp
    have hv : v ≠ "f_" := h v (List.mem_cons_self _ _)
    have hrest : ∀ u ∈ rest, u ≠ "f_" := fun u hu => h u (List.mem_cons_of_mem _ hu)
    by_cases h1 : isTagHeader v = true
    · rw [headerScanAux] at hp
      simp only [h1, if_true] at hp
      exact ih hrest (k + 1) p hp
    · rw [headerScanAux] at hp
      simp only [h1, if_false] at hp
      by_cases h2 : isFieldHeader v = true
      · simp only [h2, if_true] at hp
        rcases List.mem_cons.mp hp with he | hm
        · subst he
          have h2' := h2
          simp only [isFieldHeader, Bool.and_eq_true, decide_eq_true_eq] at h2'
          exact prefixName_ne_empty v 'f' h2'.1 h2'.2 hv
        · exact ih hrest (k + 1) p hm
      · simp only [h2, if_false] at hp
        by_cases h3 : Contains requiredFields [v] = true
        · simp only [h3, if_true] at hp
          exact ih hrest (k + 1) p hp
        · simp only [h3, if_false] at hp
          by_cases h4 : Contains optionalFields [v] = true
          · simp only [h4, if_true] at hp
            exact ih hrest (k + 1) p hp
          · simp only [h4, if_false] at hp
            exact ih hrest (k + 1) p hp

theorem enumFrom_mem_of_get? :
    ∀ (l : List String) (k j : Nat) (v : String),
      l.get? j = some v → (k + j, v) ∈ enumFrom k l := by
  intro l
  induction l with
  | nil => intro k j v h; simp at h
  | cons x xs ih =>
    intro k j v h
    cases j with
    | zero =>
      simp at h
      subst h
      simp [enumFrom]
    | succ n =>
      have h2 : xs.get? n = some v := h
      have h3 := ih (k + 1) n v h2
      have harith : k + (n + 1) = (k + 1) + n := by omega
      rw [enumFrom, harith]
      exact List.mem_cons_of_mem _ h3

theorem isNatString_ne_empty (s : String) (h : isNatString s = true) : s ≠ "" := by
  intro h0
  subst h0
  simp [isNatString] at h

/-! Characterizations of one `rowStep` iteration. -/

theorem rowStep_fst_Table (hdr : List String) (t f : List (Nat × String))
    (acc : Printable × List LogEvent) (i : Nat) (v : String) :
    ((rowStep hdr t f acc (i, v)).1).Table =
      if v ≠ "" ∧ hdr.getD i "" = "table" then v else acc.1.Table := by
  by_cases hv : v = ""
  · simp [rowStep, -List.getD_eq_getElem?_getD, hv]
  · by_cases h1 : hdr.getD i "" = "table"
    · simp [rowStep, -List.getD_eq_getElem?_getD, hv, h1]
    · by_cases h2 : hdr.getD i "" = "time"
      · simp [rowStep, -List.getD_eq_getElem?_getD, hv, h1, h2]
      · by_cases h3 : hdr.getD i "" = "target"
        · simp [rowStep, -List.getD_eq_getElem?_getD, hv, h1, h2, h3]
        · cases ht : t.lookup i <;> cases hf : f.lookup i <;>
            simp [rowStep, -List.getD_eq_getElem?_getD, hv, h1, h2, h3, ht, hf]

theorem rowStep_fst_Timestamp (hdr : List String) (t f : List (Nat × String))
    (acc : Printable × List LogEvent) (i : Nat) (v : String) :
    ((rowStep hdr t f acc (i, v)).1).Timestamp =
      if v ≠ "" ∧ hdr.getD i "" ≠ "table" ∧ hdr.getD i "" = "time" then v
      else acc.1.Timestamp := by
  by_cases hv : v = ""
  · simp [rowStep, -List.getD_eq_getElem?_getD, hv]
  · by_cases h1 : hdr.getD i "" = "table"
    · simp [rowStep, -List.getD_eq_getElem?_getD, hv, h1]
    · by_cases h2 : hdr.getD i "" = "time"
      · simp [rowStep, -List.getD_eq_getElem?_getD, hv, h1, h2]
      · by_cases h3 : hdr.getD i "" = "target"
        · simp [rowStep, -List.getD_eq_getElem?_getD, hv, h1, h2, h3]
        · cases ht : t.lookup i <;> cases hf : f.lookup i <;>
            simp [rowStep, -List.getD_eq_getElem?_getD, hv, h1, h2, h3, ht, hf]

theorem rowStep_fst_Filterable (hdr : List String) (t f : List (Nat × String))
    (acc : Printable × List LogEvent) (i : Nat) (v : String) :
    ((rowStep hdr t f acc (i, v)).1).Filterable =
      if v ≠ "" ∧ hdr.getD i "" ≠ "table" ∧ hdr.getD i "" ≠ "time" ∧
          hdr.getD i "" = "target" then ⟨v⟩
      else acc.1.Filterable := by
  by_cases hv : v = ""
  · simp [rowStep, -List.getD_eq_getElem?_getD, hv]
  · by_cases h1 : hdr.getD i "" = "table"
    · simp [rowStep, -List.getD_eq_getElem?_getD, hv, h1]
    · by_cases h2 : hdr.getD i "" = "time"
      · simp [rowStep, -List.getD_eq_getElem?_getD, hv, h1, h2]
      · by_cases h3 : hdr.getD i "" = "target"
        · simp [rowStep, -List.getD_eq_getElem?_getD, hv, h1, h2, h3]
        · cases ht : t.lookup i <;> cases hf : f.lookup i <;>
            simp [rowStep, -List.getD_eq_getElem?_getD, hv, h1, h2, h3, ht, hf]

theorem rowStep_fst_tags_lookup_empty (hdr : List String) (t f : List (Nat × String))
    (acc : Printable × List LogEvent) (i : Nat) (v : String)
    (ht : ∀ p ∈ t, p.2 ≠ "") :
    ((rowStep hdr t f acc (i, v)).1).tags.lookup "" = acc.1.tags.lookup "" := by
  by_cases hv : v = ""
  · simp [rowStep, -List.getD_eq_getElem?_getD, hv]
  · by_cases h1 : hdr.getD i "" = "table"
    · simp [rowStep, -List.getD_eq_getElem?_getD, hv, h1]
    · by_cases h2 : hdr.getD i "" = "time"
      · simp [rowStep, -List.getD_eq_getElem?_getD, hv, h1, h2]
      · by_cases h3 : hdr.getD i "" = "target"
        · simp [rowStep, -List.getD_eq_getElem?_getD, hv, h1, h2, h3]
        · cases hlt : t.lookup i with
          | some name =>
            have hname : name ≠ "" := ht (i, name) (lookup_mem hlt)
            simp [rowStep, -List.getD_eq_getElem?_getD, hv, h1, h2, h3, hlt,
              mapInsert_lookup_ne acc.1.tags name v "" (Ne.symm hname)]
          | none =>
            cases hlf : f.lookup i <;>
              simp [rowStep, -List.getD_eq_getElem?_getD, hv, h1, h2, h3, hlt, hlf]

theorem rowStep_fst_fields_lookup_empty (hdr : List String) (t f : List (Nat × String))
    (acc : Printable × List LogEvent) (i : Nat) (v : String)
    (hf : ∀ p ∈ f, p.2 ≠ "") :
    ((rowStep hdr t f acc (i, v)).1).fields.lookup "" = acc.1.fields.lookup "" := by
  by_cases hv : v = ""
  · simp [rowStep, -List.getD_eq_getElem?_getD, hv]
  · by_cases h1 : hdr.getD i "" = "table"
    · simp [rowStep, -List.getD_eq_getElem?_getD, hv, h1]
    · by_cases h2 : hdr.getD i "" = "time"
      · simp [rowStep, -List.getD_eq_getElem?_getD, hv, h1, h2]
      · by_cases h3 : hdr.getD i "" = "target"
        · simp [rowStep, -List.getD_eq_getElem?_getD, hv, h1, h2, h3]
        · cases hlt : t.lookup i with
          | some name => simp [rowStep, -List.getD_eq_getElem?_getD, hv, h1, h2, h3, hlt]
          | none =>
            cases hlf : f.lookup i with
            | some name =>
              have hname : name ≠ "" := hf (i, name) (lookup_mem hlf)
              simp [rowStep, -List.getD_eq_getElem?_getD, hv, h1, h2, h3, hlt, hlf,
                mapInsert_lookup_ne acc.1.fields name v "" (Ne.symm hname)]
            | none => simp [rowStep, -List.getD_eq_getElem?_getD, hv, h1, h2, h3, hlt, hlf]

/-! Invariants of the whole cell fold. -/

theorem foldl_rowStep_Table_stable (hdr : List String) (t f : List (Nat × String)) :
    ∀ (l : List (Nat × String)) (acc : Printable × List LogEvent),
      acc.1.Table ≠ "" → ((l.foldl (rowStep hdr t f) acc).1).Table ≠ "" := by
  intro l
  induction l with
  | nil => intro acc h; exact h
  | cons iv rest ih =>
    intro acc h
    rw [List.foldl_cons]
    apply ih
    obtain ⟨i, v⟩ := iv
    rw [rowStep_fst_Table]
    split
    · next hc => exact hc.1
    · exact h

theorem foldl_rowStep_Table_set (hdr : List String) (t f : List (Nat × String)) :
    ∀ (l : List (Nat × String)) (acc : Printable × List LogEvent),
      (∃ iv ∈ l, hdr.getD iv.1 "" = "table" ∧ iv.2 ≠ "") →
      ((l.foldl (rowStep hdr t f) acc).1).Table ≠ "" := by
  intro l
  induction l with
  | nil =>
    rintro acc ⟨iv, hm, _⟩
    exact absurd hm (List.not_mem_nil iv)
  | cons jv rest ih =>
    rintro acc ⟨iv, hm, hhd, hne⟩
    rw [List.foldl_cons]
    rcases List.mem_cons.mp hm with he | hm2
    · subst he
      apply foldl_rowStep_Table_stable
      obtain ⟨i, v⟩ := iv
      rw [rowStep_fst_Table, if_pos ⟨hne, hhd⟩]
      exact hne
    · exact ih _ ⟨iv, hm2, hhd, hne⟩

theorem foldl_rowStep_Timestamp_stable (hdr : List String) (t f : List (Nat × String)) :
    ∀ (l : List (Nat × String)) (acc : Printable × List LogEvent),
      (∀ iv ∈ l, hdr.getD iv.1 "" = "time" → isNatString iv.2 = true) →
      isNatString acc.1.Timestamp = true →
      isNatString ((l.foldl (rowStep hdr t f) acc).1).Timestamp = true := by
  intro l
  induction l with
  | nil => intro acc _ h; exact h
  | cons jv rest ih =>
    intro acc hall h
    rw [List.foldl_cons]
    apply ih _ (fun iv hm => hall iv (List.mem_cons_of_mem _ hm))
    obtain ⟨i, v⟩ := jv
    rw [rowStep_fst_Timestamp]
    split
    · next hc => exact hall (i, v) (List.mem_cons_self _ _) hc.2.2
    · exact h

theorem foldl_rowStep_Timestamp_set (hdr : List String) (t f : List (Nat × String)) :
    ∀ (l : List (Nat × String)) (acc : Printable × List LogEvent),
      (∀ iv ∈ l, hdr.getD iv.1 "" = "time" → isNatString iv.2 = true) →
      (∃ iv ∈ l, hdr.getD iv.1 "" = "time" ∧ hdr.getD iv.1 "" ≠ "table") →
      isNatString ((l.foldl (rowStep hdr t f) acc).1).Timestamp = true := by
  intro l
  induction l with
  | nil =>
    rintro acc _ ⟨iv, hm, _⟩
    exact absurd hm (List.not_mem_nil iv)
  | cons jv rest ih =>
    rintro acc hall ⟨iv, hm, hhd, hnt⟩
    rw [List.foldl_cons]
    rcases List.mem_cons.mp hm with he | hm2
    · subst he
      apply foldl_rowStep_Timestamp_stable _ _ _ _ _
        (fun iv2 hm2 => hall iv2 (List.mem_cons_of_mem _ hm2))
      obtain ⟨i, v⟩ := iv
      have hnat : isNatString v = true := hall (i, v) (List.mem_cons_self _ _) hhd
      rw [rowStep_fst_Timestamp, if_pos ⟨isNatString_ne_empty v hnat, hnt, hhd⟩]
      exact hnat
    · exact ih _ (fun iv2 hm3 => hall iv2 (List.mem_cons_of_mem _ hm3)) ⟨iv, hm2, hhd, hnt⟩

theorem foldl_rowStep_tags_lookup_empty (hdr : List String) (t f : List (Nat × String))
    (ht : ∀ p ∈ t, p.2 ≠ "") :
    ∀ (l : List (Nat × String)) (acc : Printable × List LogEvent),
      ((l.foldl (rowStep hdr t f) acc).1).tags.lookup "" = acc.1.tags.lookup "" := by
  intro l
  induction l with
  | nil => intro acc; rfl
  | cons jv rest ih =>
    intro acc
    rw [List.foldl_cons, ih]
    obtain ⟨i, v⟩ := jv
    exact rowStep_fst_tags_lookup_empty hdr t f acc i v ht

theorem foldl_rowStep_fields_lookup_empty (hdr : List String) (t f : List (Nat × String))
    (hf : ∀ p ∈ f, p.2 ≠ "") :
    ∀ (l : List (Nat × String)) (acc : Printable × List LogEvent),
      ((l.foldl (rowStep hdr t f) acc).1).fields.lookup "" = acc.1.fields.lookup "" := by
  intro l
  induction l with
  | nil => intro acc; rfl
  | cons jv rest ih =>
    intro acc
    rw [List.foldl_cons, ih]
    obtain ⟨i, v⟩ := jv
    exact rowStep_fst_fields_lookup_empty hdr t f acc i v hf

theorem foldl_rowStep_Filterable_stable (hdr : List String) (t f : List (Nat × String)) :
    ∀ (l : List (Nat × String)) (acc : Printable × List LogEvent),
      (∀ iv ∈ l, hdr.getD iv.1 "" = "target" → iv.2 = "") →
      ((l.foldl (rowStep hdr t f) acc).1).Filterable = acc.1.Filterable := by
  intro l
  induction l with
  | nil => intro acc _; rfl
  | cons jv rest ih =>
    intro acc hall
    rw [List.foldl_cons, ih _ (fun iv hm => hall iv (List.mem_cons_of_mem _ hm))]
    obtain ⟨i, v⟩ := jv
    rw [rowStep_fst_Filterable]
    split
    · next hc => exact absurd (hall (i, v) (List.mem_cons_self _ _) hc.2.2.2) hc.1
    · rfl

/-! From the fold to `parseRow` and to `parseFile`'s record list. -/

theorem parseRow_fst_Table (hdr : List String) (t f : List (Nat × String)) (r : List String) :
    (parseRow hdr t f r).1.Table =
      (((enumFrom 0 r).foldl (rowStep hdr t f) (⟨"", "", EmptyFilterable, [], []⟩, [])).1).Table := by
  simp only [parseRow]
  split <;> rfl

theorem parseRow_fst_Timestamp (hdr : List String) (t f : List (Nat × String)) (r : List String) :
    (parseRow hdr t f r).1.Timestamp =
      (((enumFrom 0 r).foldl (rowStep hdr t f) (⟨"", "", EmptyFilterable, [], []⟩, [])).1).Timestamp := by
  simp only [parseRow]
  split <;> rfl

theorem parseRow_fst_tags (hdr : List String) (t f : List (Nat × String)) (r : List String) :
    (parseRow hdr t f r).1.tags =
      (((enumFrom 0 r).foldl (rowStep hdr t f) (⟨"", "", EmptyFilterable, [], []⟩, [])).1).tags := by
  simp only [parseRow]
  split <;> rfl

theorem parseRow_fst_fields (hdr : List String) (t f : List (Nat × String)) (r : List String) :
    (parseRow hdr t f r).1.fields =
      (((enumFrom 0 r).foldl (rowStep hdr t f) (⟨"", "", EmptyFilterable, [], []⟩, [])).1).fields := by
  simp only [parseRow]
  split <;> rfl

theorem recordInvariants_of (p : Printable) (h1 : p.Table ≠ "")
    (h2 : isNatString p.Timestamp = true) (h3 : p.tags.lookup "" = none)
    (h4 : p.fields.lookup "" = none) : recordInvariants p = true := by
  simp [recordInvariants, bne_iff_ne, h1, h2, h3, h4]

theorem parseRow_invariants (hdr : List String) (t f : List (Nat × String)) (r : List String)
    (ht : ∀ p ∈ t, p.2 ≠ "") (hf : ∀ p ∈ f, p.2 ≠ "")
    (hcells : ∀ iv ∈ enumFrom 0 r,
      (hdr.getD iv.1 "" = "table" → iv.2 ≠ "") ∧
      (hdr.getD iv.1 "" = "time" → isNatString iv.2 = true))
    (htab : ∃ iv ∈ enumFrom 0 r, hdr.getD iv.1 "" = "table" ∧ iv.2 ≠ "")
    (htime : ∃ iv ∈ enumFrom 0 r, hdr.getD iv.1 "" = "time" ∧ hdr.getD iv.1 "" ≠ "table") :
    recordInvariants (parseRow hdr t f r).1 = true := by
  apply recordInvariants_of
  · rw [parseRow_fst_Table]
    exact foldl_rowStep_Table_set hdr t f _ _ htab
  · rw [parseRow_fst_Timestamp]
    exact foldl_rowStep_Timestamp_set hdr t f _ _ (fun iv hm => (hcells iv hm).2) htime
  · rw [parseRow_fst_tags]
    exact (foldl_rowStep_tags_lookup_empty hdr t f ht _ _).trans rfl
  · rw [parseRow_fst_fields]
    exact (foldl_rowStep_fields_lookup_empty hdr t f hf _ _).trans rfl

theorem foldl_records_eq_map (hdr : List String) (t f : List (Nat × String)) :
    ∀ (l : List (List String)) (a : List Printable) (b : List LogEvent),
      (l.foldl
        (fun acc r =>
          let pw := parseRow hdr t f r
          (acc.1 ++ [pw.1], acc.2 ++ pw.2)) (a, b)).1 =
      a ++ l.map (fun r => (parseRow hdr t f r).1) := by
  intro l
  induction l with
  | nil => intro a b; simp
  | cons r rest ih =>
    intro a b
    rw [List.foldl_cons, ih]
    simp

/-- The record list of a successfully parsed raw file is the row-wise map of
`parseRow` over the data rows. -/
theorem parsedRecords_raw (fn : String) (hdr : List String) (rest : List (List String))
    (hrect : (rest.all fun r => r.length = hdr.length) = true)
    (hreq : Contains hdr requiredFields = true) :
    parsedRecords fn (FileAccess.raw (hdr :: rest)) =
      rest.map (fun r => (parseRow hdr (headerScanAux 0 hdr).1 (headerScanAux 0 hdr).2.1 r).1) := by
  simp only [parsedRecords, parseFile, readAll, hrect, if_true, hreq]
  rw [foldl_records_eq_map]
  rfl

theorem contains_required_mem (hdr : List String)
    (h : Contains hdr requiredFields = true) : "table" ∈ hdr ∧ "time" ∈ hdr := by
  simp only [Contains, requiredFields, List.all_cons, List.all_nil, Bool.and_eq_true] at h
  exact ⟨List.mem_of_elem_eq_true h.1, List.mem_of_elem_eq_true h.2.1⟩

/-- Membership of the column/cell pair of a named header column in the
enumerated row, with the cell value it carries. -/
theorem enumFrom_pair_of_header (hdr : List String) (r : List String) (name : String)
    (hlen : r.length = hdr.length) (hmem : name ∈ hdr) :
    ∃ iv ∈ enumFrom 0 r, hdr.getD iv.1 "" = name := by
  obtain ⟨⟨j, hj⟩, hget⟩ := List.mem_iff_get.mp hmem
  have hjr : j < r.length := by rw [hlen]; exact hj
  have hr : r.get? j = some (r.get ⟨j, hjr⟩) := List.get?_eq_get hjr
  have hmem2 := enumFrom_mem_of_get? r 0 j (r.get ⟨j, hjr⟩) hr
  simp only [Nat.zero_add] at hmem2
  refine ⟨(j, r.get ⟨j, hjr⟩), hmem2, ?_⟩
  rw [List.getD_eq_getElem _ _ hj]
  exact hget

/-! Theorems settling the claims. -/

/-- C1: on a transient (network) failure of the flush, a quit signal during
the 10 s interruptible wait makes the worker append its serialized buffer
plus the drained result queue to the dump file `<base>` — but, against the
claim, the flush does not end there: the unconditional resend of
Worker.go:169 then POSTs the very same buffer again (the `sendErr = nil` of
line 166 is immediately overwritten), as the third trace event shows. -/
theorem sendBuffer_quit_dumps_then_still_resends :
    sendBuffer castId ["a\n"]
        ⟨[HttpResp.netErr, HttpResp.ok false], [true], ["q1\n"]⟩ =
      ⟨⟨[], [], []⟩,
        [SpillEv.post ["a\n"], SpillEv.dumpBase ["a\n", "q1\n"], SpillEv.post ["a\n"]],
        none, false⟩ := by
  rfl

/-- C2: `sendData` never returns `errorBadRequest` — on a reply with per-item
errors it either panics in `printErrors` (batch call, `log` set) or returns
`nil` (per-line call, per the `return nil //TODO: return error` of
Worker.go:252) — so the bad-request isolation branch of `sendBuffer` is
unreachable; a batch whose POST is answered with per-item errors makes the
worker panic, with no per-line resend and no `<base>-errors` dump. -/
theorem sendData_never_badRequest_and_batch_panics :
    sendData (HttpResp.ok true) true = none ∧
    sendData (HttpResp.ok true) false = some none ∧
    (∀ r lg, sendData r lg = none ∨ sendData r lg = some none ∨
        sendData r lg = some (some SendErr.httpClient)) ∧
    sendBuffer castId ["a\n", "b\n", "c\n"] ⟨[HttpResp.ok true], [], []⟩ =
      ⟨⟨[], [], []⟩, [SpillEv.post ["a\n", "b\n", "c\n"]], none, true⟩ := by
  refine ⟨rfl, rfl, ?_, rfl⟩
  intro r lg
  cases r with
  | netErr => exact Or.inr (Or.inr rfl)
  | ok b =>
    cases b with
    | false => exact Or.inr (Or.inl rfl)
    | true =>
      cases lg with
      | false => exact Or.inr (Or.inl rfl)
      | true => exact Or.inl rfl

/-- C3 counterexample: a file whose open fails is nevertheless removed — the
`os.Remove` of src/unnamed/part_000:79 runs unconditionally after
`parseFile`, so the collector does not leave the source file in place. -/
theorem fileCollector_removes_unreadable_file :
    fileCollectorTick false [("bad.csv", FileAccess.openFailed)] =
      (⟨[], ["bad.csv"], [LogEvent.openFailed]⟩, false) := by
  rfl

/-- C3 amended: the collector calls `os.Remove` on every file it processes,
whether or not open/parse succeeded (a failed parse only logs and yields zero
records); only a parser panic, which kills the goroutine, stops the
removals. -/
theorem fileCollector_removes_every_processed_file
    (files : List (String × FileAccess))
    (h : (fileCollectorFiles files).2 = false) :
    (fileCollectorFiles files).1.removed = files.map Prod.fst := by
  induction files with
  | nil => rfl
  | cons f rest ih =>
    obtain ⟨name, acc⟩ := f
    cases hp : parseFile name acc with
    | none => simp [fileCollectorFiles, hp] at h
    | some res =>
      simp only [fileCollectorFiles, hp] at h ⊢
      simp only [List.map_cons]
      exact congrArg (name :: ·) (ih h)

/-- C3 amended, witness: a tick over an unreadable file and a well-formed file
removes both. -/
theorem fileCollector_removes_every_processed_file_witness :
    (fileCollectorFiles
        [("bad.csv", FileAccess.openFailed),
         ("good.csv", FileAccess.raw [["table", "time"], ["t", "1"]])]).1.removed =
      ["bad.csv", "good.csv"] :=
  fileCollector_removes_every_processed_file _ (by decide)

/-- C6: in the Ready state the worker flushes exactly on the three triggers —
quit (flush the remaining buffer, then exit), a received record making the
buffer reach 10000 (flush, reset), the 20 s data timeout (flush, reset) — and
a received record is appended before the count check. -/
theorem ready_state_flush_triggers (buffer : List String) :
    runStep buffer (RunEvent.quit (Q := String)) = ⟨buffer, [buffer], true⟩ ∧
    (∀ q : String, (buffer ++ [q]).length = 10000 →
        runStep buffer (RunEvent.job q) = ⟨[], [buffer ++ [q]], false⟩) ∧
    (∀ q : String, (buffer ++ [q]).length ≠ 10000 →
        runStep buffer (RunEvent.job q) = ⟨buffer ++ [q], [], false⟩) ∧
    runStep buffer (RunEvent.timeout (Q := String)) = ⟨[], [buffer], false⟩ ∧
    dataTimeout = 20 := by
  refine ⟨rfl, ?_, ?_, rfl, rfl⟩ <;> intro q h
  · simp only [runStep]
    rw [if_pos h]
  · simp only [runStep]
    rw [if_neg h]

/-- C6 witness: the three triggers at concrete buffers. -/
theorem ready_state_flush_triggers_witness :
    runStep (List.replicate 9999 "a") (RunEvent.job "b") =
      ⟨[], [List.replicate 9999 "a" ++ ["b"]], false⟩ ∧
    runStep ["x"] (RunEvent.job "y") = ⟨["x", "y"], [], false⟩ ∧
    runStep ["x"] (RunEvent.quit (Q := String)) = ⟨["x"], [["x"]], true⟩ :=
  ⟨(ready_state_flush_triggers (List.replicate 9999 "a")).2.1 "b"
      (by rw [List.length_append, List.length_replicate]; rfl),
   (ready_state_flush_triggers ["x"]).2.2.1 "y" (by simp),
   (ready_state_flush_triggers ["x"]).1⟩

/-- C7: when the dump file does not exist, `dumpQueries` creates it through
`os.Create`, whose requested mode is 0666 — not the 0600 of the claim: the
0600 argument of the subsequent `os.OpenFile` is dead since `O_CREATE` is not
among its flags — and every write appends the queries to the existing
content. -/
theorem dumpQueries_creates_mode_0666_and_appends :
    dumpQueries none ["a\n", "b\n"] = some ⟨0o666, "a\nb\n"⟩ ∧
    (∀ f : FileState, ∀ qs : List String,
        dumpQueries (some f) qs = some ⟨f.mode, f.content ++ String.join qs⟩) :=
  ⟨rfl, fun _ _ => rfl⟩

/-- C8: a CSV file whose header lacks `table` or `time` yields zero records
and the warning naming the file and the required fields, and contributes
nothing to any result queue. -/
theorem csv_missing_required_columns (fn : String) (hdr : List String)
    (rest : List (List String))
    (hrect : (rest.all fun r => r.length = hdr.length) = true)
    (hmiss : Contains hdr requiredFields = false) :
    parseFile fn (FileAccess.raw (hdr :: rest)) =
      some ([], [LogEvent.missingRequired fn requiredFields]) ∧
    (fileCollectorFiles [(fn, FileAccess.raw (hdr :: rest))]).1.emitted = [] := by
  have h1 : parseFile fn (FileAccess.raw (hdr :: rest)) =
      some ([], [LogEvent.missingRequired fn requiredFields]) := by
    simp [parseFile, readAll, hrect, hmiss]
  exact ⟨h1, by simp [fileCollectorFiles, h1]⟩

/-- C8 witness: the spec's literal scenario 2, header `table;t_host`. -/
theorem csv_missing_required_columns_witness :
    parseFile "x.csv" (FileAccess.raw [["table", "t_host"], ["cpu", "srvA"]]) =
      some ([], [LogEvent.missingRequired "x.csv" ["table", "time"]]) :=
  (csv_missing_required_columns "x.csv" ["table", "t_host"] [["cpu", "srvA"]]
    (by decide) (by decide)).1

/-- C9: a tick that starts with the aggregate pause flag set enqueues no job
in the spool scanner (and does not touch the gauge) and emits no record,
removes no file and logs nothing in the CSV collector. -/
theorem paused_tick_enqueues_nothing (dir : String) (names : List String)
    (files : List (String × FileAccess)) :
    spoolCollectorTick true dir names = ⟨[], none⟩ ∧
    fileCollectorTick true files = (⟨[], [], []⟩, false) :=
  ⟨rfl, rfl⟩

/-- C4 counterexample: the parser does not enforce the Record invariants — a
header column that is exactly `t_` yields a record whose `tags` map has the
empty string as key, and a row with an empty `table` cell and a non-numeric
`time` cell yields a record with empty `table` and non-numeric `timestamp`. -/
theorem csv_parser_breaks_record_invariants :
    parseFile "f.csv" (FileAccess.raw [["table", "time", "t_"], ["cpu", "123", "x"]]) =
      some ([⟨"cpu", "123", ⟨"all"⟩, [("", "x")], []⟩], []) ∧
    recordInvariants ⟨"cpu", "123", ⟨"all"⟩, [("", "x")], []⟩ = false ∧
    parseFile "g.csv" (FileAccess.raw [["table", "time"], ["", "x"]]) =
      some ([⟨"", "x", ⟨"all"⟩, [], []⟩], []) ∧
    recordInvariants ⟨"", "x", ⟨"all"⟩, [], []⟩ = false :=
  ⟨rfl, rfl, rfl, rfl⟩

/-- C4 amended: every Record the CSV parser produces satisfies the Record
invariants (non-empty `table`, decimal `timestamp`, no empty-string key in
`tags` or `fields`) provided no header column is exactly `t_` or `f_`, every
cell of a `table` column is non-empty, and every cell of a `time` column is a
non-empty digit string. -/
theorem csv_clean_inputs_give_invariant_records
    (fn : String) (hdr : List String) (rest : List (List String))
    (hhdr : ∀ v ∈ hdr, v ≠ "t_" ∧ v ≠ "f_")
    (hcells : ∀ r ∈ rest, ∀ iv ∈ enumFrom 0 r,
      (hdr.getD iv.1 "" = "table" → iv.2 ≠ "") ∧
      (hdr.getD iv.1 "" = "time" → isNatString iv.2 = true)) :
    ∀ p ∈ parsedRecords fn (FileAccess.raw (hdr :: rest)), recordInvariants p = true := by
  intro p hp
  by_cases hrect : (rest.all fun r => r.length = hdr.length) = true
  · by_cases hreq : Contains hdr requiredFields = true
    · rw [parsedRecords_raw fn hdr rest hrect hreq] at hp
      obtain ⟨r, hr, rfl⟩ := List.mem_map.mp hp
      obtain ⟨htab0, htime0⟩ := contains_required_mem hdr hreq
      have hlen : r.length = hdr.length :=
        of_decide_eq_true (List.all_eq_true.mp hrect r hr)
      obtain ⟨ivtab, hmtab, hhtab⟩ := enumFrom_pair_of_header hdr r "table" hlen htab0
      obtain ⟨ivtime, hmtime, hhtime⟩ := enumFrom_pair_of_header hdr r "time" hlen htime0
      apply parseRow_invariants
      · exact headerScanAux_tag_names hdr (fun v hv => (hhdr v hv).1) 0
      · exact headerScanAux_field_names hdr (fun v hv => (hhdr v hv).2) 0
      · exact hcells r hr
      · exact ⟨ivtab, hmtab, hhtab, (hcells r hr ivtab hmtab).1 hhtab⟩
      · refine ⟨ivtime, hmtime, hhtime, ?_⟩
        rw [hhtime]
        decide
    · simp [parsedRecords, parseFile, readAll, hrect, hreq] at hp
  · simp [parsedRecords, parseFile, readAll, hrect] at hp

/-- C4 amended, witness: on the spec's happy-path file every produced record
satisfies the invariants. -/
theorem csv_clean_inputs_give_invariant_records_witness :
    (parsedRecords "f.csv" (FileAccess.raw
        [["table", "time", "target", "t_host", "f_value"],
         ["cpu", "1700000000000", "all", "srvA", "0.42"]])).all recordInvariants = true := by
  rw [List.all_eq_true]
  intro p hp
  exact csv_clean_inputs_give_invariant_records "f.csv" _ _ (by decide) (by decide) p hp

/-- C5: the spec's happy-path file yields exactly the expected single Record;
in general an empty cell leaves the record unchanged, a non-empty cell is
routed by its column header (`table` → Table, `time` → Timestamp, `target` →
filter, a `t_`-column → tags, an `f_`-column → fields, in this order of
precedence), and a row whose `target` cells are all empty — in particular a
row with no `target` column — gets the filter `all`. -/
theorem csv_happy_path_and_row_mapping :
    parseFile "f.csv" (FileAccess.raw
        [["table", "time", "target", "t_host", "f_value"],
         ["cpu", "1700000000000", "all", "srvA", "0.42"]]) =
      some ([⟨"cpu", "1700000000000", ⟨"all"⟩, [("host", "srvA")], [("value", "0.42")]⟩], []) ∧
    (∀ hdr t f acc i, rowStep hdr t f acc (i, "") = acc) ∧
    (∀ hdr t f acc i v, v ≠ "" → hdr.getD i "" = "table" →
      rowStep hdr t f acc (i, v) = ({ acc.1 with Table := v }, acc.2)) ∧
    (∀ hdr t f acc i v, v ≠ "" → hdr.getD i "" ≠ "table" → hdr.getD i "" = "time" →
      rowStep hdr t f acc (i, v) = ({ acc.1 with Timestamp := v }, acc.2)) ∧
    (∀ hdr t f acc i v, v ≠ "" → hdr.getD i "" ≠ "table" → hdr.getD i "" ≠ "time" →
      hdr.getD i "" = "target" →
      rowStep hdr t f acc (i, v) = ({ acc.1 with Filterable := ⟨v⟩ }, acc.2)) ∧
    (∀ hdr t f acc i v name, v ≠ "" → hdr.getD i "" ≠ "table" → hdr.getD i "" ≠ "time" →
      hdr.getD i "" ≠ "target" → t.lookup i = some name →
      rowStep hdr t f acc (i, v) = ({ acc.1 with tags := mapInsert acc.1.tags name v }, acc.2)) ∧
    (∀ hdr t f acc i v name, v ≠ "" → hdr.getD i "" ≠ "table" → hdr.getD i "" ≠ "time" →
      hdr.getD i "" ≠ "target" → t.lookup i = none → f.lookup i = some name →
      rowStep hdr t f acc (i, v) = ({ acc.1 with fields := mapInsert acc.1.fields name v }, acc.2)) ∧
    (∀ hdr t f r, (∀ iv ∈ enumFrom 0 r, hdr.getD iv.1 "" = "target" → iv.2 = "") →
      (parseRow hdr t f r).1.Filterable = AllFilterable) := by
  refine ⟨rfl, ?_, ?_, ?_, ?_, ?_, ?_, ?_⟩
  · intro hdr t f acc i
    simp [rowStep]
  · intro hdr t f acc i v hv h1
    simp [rowStep, -List.getD_eq_getElem?_getD, hv, h1]
  · intro hdr t f acc i v hv h1 h2
    simp [rowStep, -List.getD_eq_getElem?_getD, hv, h1, h2]
  · intro hdr t f acc i v hv h1 h2 h3
    simp [rowStep, -List.getD_eq_getElem?_getD, hv, h1, h2, h3]
  · intro hdr t f acc i v name hv h1 h2 h3 hlt
    simp [rowStep, -List.getD_eq_getElem?_getD, hv, h1, h2, h3, hlt]
  · intro hdr t f acc i v name hv h1 h2 h3 hlt hlf
    simp [rowStep, -List.getD_eq_getElem?_getD, hv, h1, h2, h3, hlt, hlf]
  · intro hdr t f r hall
    have hF := foldl_rowStep_Filterable_stable hdr t f (enumFrom 0 r)
      ((⟨"", "", EmptyFilterable, [], []⟩ : Printable), ([] : List LogEvent)) hall
    simp only [parseRow]
    rw [if_pos hF]

/-- C5 witness: the routing clauses at concrete cells. -/
theorem csv_happy_path_and_row_mapping_witness :
    rowStep ["time"] [] []
        ((⟨"", "", EmptyFilterable, [], []⟩ : Printable), ([] : List LogEvent)) (0, "9") =
      (⟨"", "9", EmptyFilterable, [], []⟩, []) ∧
    (parseRow ["table", "time"] [] [] ["cpu", "9"]).1.Filterable = AllFilterable :=
  ⟨csv_happy_path_and_row_mapping.2.2.2.1 ["time"] [] [] _ 0 "9"
      (by decide) (by decide) (by decide),
   csv_happy_path_and_row_mapping.2.2.2.2.2.2.2 ["table", "time"] [] [] ["cpu", "9"]
      (by decide)⟩

/-- C10: `parseFile` is not total — on a file whose CSV parse yields zero
rows (an empty file) the access `records[0]` is out of bounds and the parser
panics; every other access shape returns a record list. -/
theorem parseFile_panics_on_empty_total_otherwise :
    parseFile "empty.csv" (FileAccess.raw []) = none ∧
    (∀ fn : String, ∀ hdr : List String, ∀ rest : List (List String),
        (parseFile fn (FileAccess.raw (hdr :: rest))).isSome = true) ∧
    (∀ fn : String, (parseFile fn FileAccess.openFailed).isSome = true) ∧
    (∀ fn : String, (parseFile fn FileAccess.readFailed).isSome = true) := by
  refine ⟨rfl, ?_, fun _ => rfl, fun _ => rfl⟩
  intro fn hdr rest
  by_cases hr : (rest.all fun r => r.length = hdr.length) = true
  · simp only [parseFile, readAll, hr, if_true]
    split <;> simp
  · simp [parseFile, readAll, hr]

end Nagflux
